import Mathlib

/-!
Verification development for the art-knowledge-graph backend.

This file gives a shallow embedding, in Lean 4, of the core components of the
`graph_service` backend (circuit breaker, cache access, entity models, breadth
first subgraph generation, similarity analysis) and proves or refutes the
behavioural claims made about them.

Conventions of the embedding:
* Python `uuid` values are opaque identifiers; they are modelled as `Nat`.
* `datetime` timestamps are modelled as `Int` (seconds); the floating point
  representation plays no role in any comparison we reason about.
* Fractions such as the circuit-breaker failure ratio are modelled as `Rat`.
* Python dictionaries are modelled as insertion-ordered association lists, and
  Python sets of structural values as duplicate-free lists.
* `async` functions are modelled as pure state-passing functions: the spec
  fixes that batch merges are order independent, so sequential folding over
  the batches is a faithful model of the `asyncio.gather` calls.
* Exceptions are modelled with `Except`; external library functions that this
  code merely pipes data through (`uuid.uuid5`, `json.loads`, `bleach.clean`)
  are universally quantified function parameters.
-/

namespace ArtGraph

/-- Node / relationship identifiers (Python `uuid` strings), modelled opaquely. -/
abbrev Uuid := Nat

/-! ## CircuitBreaker (`src/backend/shared/utils/cache.py`, lines 50-89)

Translation of the `CircuitBreaker` class.  The Python `is_open` property
mutates `_is_open` when the reset interval has elapsed, so it is modelled as a
function returning the answer together with the updated breaker. -/

/-- Constant `CIRCUIT_BREAKER_THRESHOLD = 0.5` from `cache.py`. -/
def CIRCUIT_BREAKER_THRESHOLD : Rat := 1 / 2

/-- Constant `CIRCUIT_BREAKER_INTERVAL = 30` from `cache.py`. -/
def CIRCUIT_BREAKER_INTERVAL : Int := 30

/-- State of `CircuitBreaker` (`cache.py`): `threshold`, `interval`,
`failures`, `total_requests`, `last_failure_time`, `_is_open`. -/
structure CircuitBreaker where
  threshold : Rat
  interval : Int
  failures : Nat
  total_requests : Nat
  last_failure_time : Int
  isOpenFlag : Bool
deriving Repr, DecidableEq

/-- `CircuitBreaker.__init__`. -/
def CircuitBreaker.init (threshold : Rat := CIRCUIT_BREAKER_THRESHOLD)
    (interval : Int := CIRCUIT_BREAKER_INTERVAL) : CircuitBreaker :=
  { threshold := threshold, interval := interval, failures := 0,
    total_requests := 0, last_failure_time := 0, isOpenFlag := false }

/-- `CircuitBreaker._update_state`: open the breaker when the failure ratio
strictly exceeds the threshold (guarded by `total_requests > 0`). -/
def CircuitBreaker.updateState (cb : CircuitBreaker) : CircuitBreaker :=
  if 0 < cb.total_requests ∧
      cb.threshold < (cb.failures : Rat) / (cb.total_requests : Rat) then
    { cb with isOpenFlag := true }
  else
    cb

/-- `CircuitBreaker.record_success`: bump `total_requests`, re-evaluate state.
Note the code never resets `failures`. -/
def CircuitBreaker.record_success (cb : CircuitBreaker) : CircuitBreaker :=
  CircuitBreaker.updateState { cb with total_requests := cb.total_requests + 1 }

/-- `CircuitBreaker.record_failure`: bump `failures` and `total_requests`,
remember the failure time, re-evaluate state. -/
def CircuitBreaker.record_failure (cb : CircuitBreaker) (now : Int) : CircuitBreaker :=
  CircuitBreaker.updateState
    { cb with failures := cb.failures + 1, total_requests := cb.total_requests + 1,
              last_failure_time := now }

/-- The `is_open` property: if the flag is set and more than `interval` has
elapsed since the last failure, clear the flag; return the (possibly updated)
flag together with the updated breaker. -/
def CircuitBreaker.isOpenCheck (cb : CircuitBreaker) (now : Int) : Bool × CircuitBreaker :=
  if cb.isOpenFlag ∧ cb.interval < now - cb.last_failure_time then
    (false, { cb with isOpenFlag := false })
  else
    (cb.isOpenFlag, cb)

/-! ## CacheManager.get_cached_data (`cache.py`, lines 131-161) and
GraphGenerator._get_from_cache (`graph_generator.py`, lines 274-281) -/

/-- Outcome of one call to the backing cache client: either it returns a value
(`none` = key absent), or it raises (connection error, timeout, decode
failure, ...). -/
inductive ClientGet where
  | ok (data : Option String)
  | err
deriving Repr, DecidableEq

/-- Errors `get_cached_data` can raise to its caller. -/
inductive CacheError where
  | circuitOpen
  | clientError
deriving Repr, DecidableEq

/-- `CacheManager.get_cached_data`: check the breaker (raising `circuitOpen`
if it reports open), query the client; on data, record a success and return
the decoded value; on a falsy reply (absent key or empty payload) return the
`None` sentinel without touching the breaker; on a client exception record a
failure and re-raise.  `json.loads` is the parameter `jsonLoads`. -/
def CacheManager.get_cached_data (jsonLoads : String → String) (cb : CircuitBreaker)
    (now : Int) (client : ClientGet) :
    Except CacheError (Option String) × CircuitBreaker :=
  let checked := cb.isOpenCheck now
  if checked.1 then
    (.error .circuitOpen, checked.2)
  else
    match client with
    | .err => (.error .clientError, checked.2.record_failure now)
    | .ok none => (.ok none, checked.2)
    | .ok (some d) =>
        if d = "" then (.ok none, checked.2)
        else (.ok (some (jsonLoads d)), checked.2.record_success)

/-- `GraphGenerator._get_from_cache`: `return data if data else None`, with
every exception caught and turned into `None`. -/
def GraphGenerator.getFromCache (client : ClientGet) : Option String :=
  match client with
  | .err => none
  | .ok none => none
  | .ok (some d) => if d = "" then none else some d

/-- A caller that reads through `CacheManager.get_cached_data` and treats any
raised cache error as a miss (the degradation the spec requires of every
cache consumer). -/
def GraphGenerator.getViaManager (jsonLoads : String → String) (cb : CircuitBreaker)
    (now : Int) (client : ClientGet) : Option String :=
  match (CacheManager.get_cached_data jsonLoads cb now client).1 with
  | .error _ => none
  | .ok v => v

/-! ## Artwork checksum (`src/backend/graph_service/models/artwork.py`)

The in-memory `Artwork` state that `_generate_checksum` and `update_metadata`
touch.  In the source, `checksum`, `version` and `metadata` live inside the
`properties` dict; they are modelled as dedicated fields of the record, and
`datetime` values are modelled by their string rendering (only their
concatenation into the checksum input matters). -/

structure Artwork where
  title : String
  creation_date : String
  medium : String
  checksum : String
  version : Nat
  metadata : List (String × String)
  modified_by : String
deriving Repr, DecidableEq

/-- `Artwork._generate_checksum`: `uuid5(NAMESPACE_DNS, title + creation_date
+ medium)`; `uuid.uuid5` is the function parameter `uuid5dns`. -/
def Artwork.generateChecksum (uuid5dns : String → String) (a : Artwork) : String :=
  uuid5dns (a.title ++ a.creation_date ++ a.medium)

/-- Python dict merge `{**a, **b}`: keys of `a` in order (values overridden by
`b` where present), then the new keys of `b` in order. -/
def mergeAssoc (a b : List (String × String)) : List (String × String) :=
  a.map (fun kv =>
    match b.find? (fun kv2 => kv2.1 = kv.1) with
    | some kv2 => (kv.1, kv2.2)
    | none => kv)
  ++ b.filter (fun kv2 => ¬ a.any (fun kv => kv.1 = kv2.1))

/-- `Artwork.__init__` (the parts relevant to integrity): set the three
required fields, then `properties["checksum"] = self._generate_checksum()`
and `properties["version"] = 1`. -/
def Artwork.create (uuid5dns : String → String)
    (title creation_date medium created_by : String) : Artwork :=
  let base : Artwork :=
    { title := title, creation_date := creation_date, medium := medium,
      checksum := "", version := 1, metadata := [], modified_by := created_by }
  { base with checksum := Artwork.generateChecksum uuid5dns base }

/-- `Artwork.update_metadata`: bump the stored version, merge the metadata
dict, stamp the auditor, then recompute the checksum.  (The subsequent
database write does not touch these fields.) -/
def Artwork.update_metadata (uuid5dns : String → String) (a : Artwork)
    (md : List (String × String)) (audit_user : String) : Artwork :=
  let a1 : Artwork :=
    { a with version := a.version + 1, metadata := mergeAssoc a.metadata md,
             modified_by := audit_user }
  { a1 with checksum := Artwork.generateChecksum uuid5dns a1 }

/-! ## Node model (`src/backend/graph_service/models/node.py`) -/

/-- `NODE_TYPES` from `node.py`. -/
def NODE_TYPES : List String :=
  ["ARTWORK", "ARTIST", "MOVEMENT", "TECHNIQUE", "PERIOD", "LOCATION", "MATERIAL"]

/-- `REQUIRED_PROPERTIES` from `node.py`. -/
def REQUIRED_PROPERTIES : List (String × List String) :=
  [("ARTWORK", ["title", "year", "medium"]),
   ("ARTIST", ["name", "birth_year"]),
   ("MOVEMENT", ["name", "period"]),
   ("TECHNIQUE", ["name", "description"])]

/-- `REQUIRED_PROPERTIES.get(self.type, [])`. -/
def requiredFor (t : String) : List String :=
  ((REQUIRED_PROPERTIES.find? (fun p => p.1 = t)).map (fun p => p.2)).getD []

/-- In-memory `Node` object: `uuid`, `type`, `label`, `properties`, `version`,
`last_modified_by` (timestamps omitted — no claim mentions them; property
values modelled as strings). -/
structure PNode where
  uuid : Uuid
  type : String
  label : String
  properties : List (String × String)
  version : Nat
  last_modified_by : String
deriving Repr, DecidableEq

/-- `Node.validate_properties`: raise when a required property for the node
type is missing, otherwise sanitize every string value (`bleach.clean` is the
parameter `clean`). -/
def Node.validate_properties (clean : String → String) (t : String)
    (props : List (String × String)) : Except String (List (String × String)) :=
  let required := requiredFor t
  let missing := required.filter (fun p => ¬ props.any (fun kv => kv.1 = p))
  if missing.isEmpty then
    .ok (props.map (fun kv => (kv.1, clean kv.2)))
  else
    .error "Missing required properties"

/-- A node record as persisted in the graph store. -/
structure StoredNode where
  uuid : Uuid
  type : String
  label : String
  properties : List (String × String)
  version : Nat
  last_modified_by : String
deriving Repr, DecidableEq

/-- A relationship record as persisted in the graph store (endpoints only;
`Node.delete` counts incident relationships regardless of direction). -/
structure StoredRel where
  uuid : Uuid
  source : Uuid
  target : Uuid
deriving Repr, DecidableEq

/-- The state owned by the external graph store. -/
structure NodeDb where
  nodes : List StoredNode
  rels : List StoredRel
deriving Repr, DecidableEq

/-- Lookup of a stored node by uuid. -/
def findNode (db : NodeDb) (u : Uuid) : Option StoredNode :=
  db.nodes.find? (fun n => n.uuid = u)

/-- `Node.update` (`node.py`, lines 140-186): validate and sanitize the merged
properties, then run the Cypher
`MATCH (n {uuid}) WHERE n.version = $current_version SET ... RETURN n`
with `$current_version = self.version` and `$new_version = self.version + 1`.
A node is written (and a row returned) only where both uuid and version
match; an empty result raises the version-conflict `ValueError` and leaves
the store untouched. -/
def Node.update (clean : String → String) (db : NodeDb) (self : PNode)
    (properties : List (String × String)) (modified_by : String) :
    Except String PNode × NodeDb :=
  match Node.validate_properties clean self.type (mergeAssoc self.properties properties) with
  | .error e => (.error e, db)
  | .ok validated =>
    let matched := db.nodes.filter (fun n => n.uuid = self.uuid ∧ n.version = self.version)
    if matched.isEmpty then
      (.error "Node version conflict or node not found", db)
    else
      (.ok { self with properties := validated, version := self.version + 1,
                       last_modified_by := modified_by },
       { db with nodes := db.nodes.map (fun n =>
           if n.uuid = self.uuid ∧ n.version = self.version then
             { n with properties := validated, version := self.version + 1,
                      last_modified_by := modified_by }
           else n) })

/-- `relCount`: result of the check query
`MATCH (n {uuid})-[r]-() RETURN count(r)` — the number of stored
relationships incident to the node, in either direction. -/
def relCount (db : NodeDb) (u : Uuid) : Nat :=
  (db.rels.filter (fun r => r.source = u ∨ r.target = u)).length

/-- Result of `Node.delete`, recording whether the `DELETE` query was ever
issued to the store. -/
structure DeleteOutcome where
  result : Except String Bool
  db : NodeDb
  deleteIssued : Bool
deriving Repr

/-- `Node.delete` (`node.py`, lines 188-218): run the relationship-count
check first; a positive count raises the `ValueError` without issuing the
deletion query; otherwise issue the deletion and report `True`. -/
def Node.delete (db : NodeDb) (self : PNode) : DeleteOutcome :=
  if 0 < relCount db self.uuid then
    { result := .error "Cannot delete node with existing relationships",
      db := db, deleteIssued := false }
  else
    { result := .ok true,
      db := { db with nodes := db.nodes.filter (fun n => ¬ n.uuid = self.uuid) },
      deleteIssued := true }

/-! ## GraphGenerator (`src/backend/graph_service/services/graph_generator.py`) -/

/-- Constant `MAX_GRAPH_SIZE = 1000` from `graph_generator.py`. -/
def MAX_GRAPH_SIZE : Nat := 1000

/-- Constant `DEFAULT_BATCH_SIZE = 50` from `graph_generator.py`. -/
def DEFAULT_BATCH_SIZE : Nat := 50

/-- Constant `GRAPH_CACHE_TTL = 3600` from `graph_generator.py`. -/
def GRAPH_CACHE_TTL : Nat := 3600

/-- Property values carried by generated graph nodes: strings, and the 2-D
layout position written by `_optimize_graph`. -/
inductive PropVal where
  | str (s : String)
  | point (x y : Rat)
deriving Repr, DecidableEq

/-- A node as handled by the generator. -/
structure GNode where
  uuid : Uuid
  type : String
  properties : List (String × PropVal)
deriving Repr, DecidableEq

/-- A relationship as handled by the generator. -/
structure GRel where
  uuid : Uuid
  type : String
  source_node : Uuid
  target_node : Uuid
deriving Repr, DecidableEq

/-- Modelled from the spec: the store lookups `_get_artwork_node` and
`_get_node_relationships` are called by `generate_artwork_graph` and
`_process_node_chunk` but are defined nowhere in the repository.  Following
spec §4.4 (breadth-first expansion fetches, for each frontier node, its
neighbouring nodes and the relationships incident to it), the store is an
interface returning exactly that. -/
structure GraphStore where
  getArtworkNode : Uuid → Option GNode
  getNodeRelationships : Uuid → List GNode × List GRel

/-- Store sanity, matching what the Cypher pattern
`(n {uuid: $id})-[r]-(m) RETURN m, r` can return: every relationship
returned for `u` touches `u`, and both endpoints are `u` or a returned
neighbour. -/
def StoreWF (s : GraphStore) : Prop :=
  ∀ u : Uuid, ∀ r ∈ (s.getNodeRelationships u).2,
    (r.source_node = u ∨ r.target_node = u) ∧
    r.source_node ∈ u :: ((s.getNodeRelationships u).1.map GNode.uuid) ∧
    r.target_node ∈ u :: ((s.getNodeRelationships u).1.map GNode.uuid)

/-- Accumulator of `_generate_graph_parallel`: the `nodes` dict (uuid-keyed,
insertion ordered) and the `relationships` set (structural values, modelled
as a duplicate-free list). -/
structure GenState where
  nodes : List (Uuid × GNode)
  relationships : List GRel
deriving Repr, DecidableEq

/-- `if node.uuid not in nodes: nodes[node.uuid] = node`. -/
def insertNode (m : List (Uuid × GNode)) (n : GNode) : List (Uuid × GNode) :=
  if m.any (fun kv => kv.1 = n.uuid) then m else m ++ [(n.uuid, n)]

/-- One element of `relationships.update(...)`: a set adds only unseen
values. -/
def insertRel (rs : List GRel) (r : GRel) : List GRel :=
  if r ∈ rs then rs else rs ++ [r]

/-- Body of the `for node_id in node_ids` loop of `_process_node_chunk`:
fetch the node's neighbourhood, insert unseen nodes, union the
relationships. -/
def processNode (s : GraphStore) (st : GenState) (u : Uuid) : GenState :=
  { nodes := (s.getNodeRelationships u).1.foldl insertNode st.nodes,
    relationships := (s.getNodeRelationships u).2.foldl insertRel st.relationships }

/-- `_process_node_chunk` over one chunk of node ids. -/
def processNodeChunk (s : GraphStore) (st : GenState) (chunk : List Uuid) : GenState :=
  chunk.foldl (processNode s) st

/-- Helper for the list-slicing loop
`[current_nodes[i:i + DEFAULT_BATCH_SIZE] for i in range(0, len, BATCH)]`;
written with a length fuel so the recursion is structural and computes. -/
def chunksOfAux (k : Nat) : Nat → List Uuid → List (List Uuid)
  | _, [] => []
  | 0, l => [l]
  | fuel+1, x :: xs => (x :: xs.take (k-1)) :: chunksOfAux k fuel (xs.drop (k-1))

/-- Partition of the frontier ids into consecutive batches of `k`. -/
def chunksOf (k : Nat) (l : List Uuid) : List (List Uuid) := chunksOfAux k l.length l

/-- One BFS level of `_generate_graph_parallel`: snapshot the accumulated
node ids, split them into batches of `DEFAULT_BATCH_SIZE`, process every
batch.  Batches merge by set union (spec §5: order independent), so the
`asyncio.gather` is modelled as a sequential fold over the batches. -/
def levelStep (s : GraphStore) (st : GenState) : GenState :=
  (chunksOf DEFAULT_BATCH_SIZE (st.nodes.map Prod.fst)).foldl (processNodeChunk s) st

/-- The `for level in range(depth)` loop together with its early `break`
once the accumulated node count exceeds `MAX_GRAPH_SIZE`. -/
def bfsLoop (s : GraphStore) : Nat → GenState → GenState
  | 0, st => st
  | n+1, st =>
    let st2 := levelStep s st
    if MAX_GRAPH_SIZE < st2.nodes.length then st2 else bfsLoop s n st2

/-- `_generate_graph_parallel`: start from `{artwork.uuid: artwork}` and an
empty relationship set, expand `depth` levels with the early stop. -/
def generateGraphParallel (s : GraphStore) (artwork : GNode) (depth : Nat) : GenState :=
  bfsLoop s depth { nodes := [(artwork.uuid, artwork)], relationships := [] }

/-- The dict `_generate_graph_parallel` returns:
`{"nodes": list(nodes.values()), "relationships": list(relationships)}`.
Note the type: there is no metadata and no truncation flag. -/
structure GraphResult where
  nodes : List GNode
  relationships : List GRel
deriving Repr, DecidableEq

/-- `dict[key] = value` on a property map. -/
def setProp (ps : List (String × PropVal)) (k : String) (v : PropVal) :
    List (String × PropVal) :=
  if ps.any (fun kv => kv.1 = k) then
    ps.map (fun kv => if kv.1 = k then (k, v) else kv)
  else
    ps ++ [(k, v)]

/-- `_optimize_graph`: write a 2-D position (computed by the external
`networkx.spring_layout`, the parameter `pos`) into every node's property
map; the node and relationship structure is untouched. -/
def optimizeGraph (pos : Uuid → Rat × Rat) (g : GraphResult) : GraphResult :=
  { g with nodes := g.nodes.map (fun n =>
      { n with
        properties := setProp n.properties "position"
          (PropVal.point (pos n.uuid).1 (pos n.uuid).2) }) }

/-- Outcome of the one redis `get` that `generate_artwork_graph` performs
through `_get_from_cache` (deserialization folded in; an exception is
`err`). -/
inductive CacheOutcome where
  | ok (v : Option GraphResult)
  | err

/-- `_get_from_cache` at graph-result type: every error becomes `None`. -/
def getFromCacheG (o : CacheOutcome) : Option GraphResult :=
  match o with
  | .err => none
  | .ok v => v

/-- Externally observable queries of one `generate_artwork_graph` call, in
order. -/
inductive QueryEvent where
  | cacheGet (key : String)
  | storeGetArtwork (id : Uuid)
  | cacheSet (key : String)
deriving Repr, DecidableEq

/-- The cache key `f"graph:{artwork_id}:{depth}"`. -/
def graphCacheKey (artwork_id : Uuid) (depth : Nat) : String :=
  "graph:" ++ toString artwork_id ++ ":" ++ toString depth

/-- `generate_artwork_graph` (lines 109-167): compute the cache key and
consult the cache first (any cache error degrades to a miss), returning a
hit unchanged; on a miss, look up the root artwork (`ValueError` when
absent), expand breadth-first, lay the result out and cache it.  The
function performs no validation of `depth`.  The second component is the
ordered list of external queries issued. -/
def generateArtworkGraph (s : GraphStore) (cache : String → CacheOutcome)
    (pos : Uuid → Rat × Rat) (artwork_id : Uuid) (depth : Nat) :
    Except String GraphResult × List QueryEvent :=
  match getFromCacheG (cache (graphCacheKey artwork_id depth)) with
  | some cached => (.ok cached, [.cacheGet (graphCacheKey artwork_id depth)])
  | none =>
    match s.getArtworkNode artwork_id with
    | none => (.error ("Artwork not found: " ++ toString artwork_id),
               [.cacheGet (graphCacheKey artwork_id depth), .storeGetArtwork artwork_id])
    | some artwork =>
      (.ok (optimizeGraph pos
              { nodes := (generateGraphParallel s artwork depth).nodes.map Prod.snd,
                relationships := (generateGraphParallel s artwork depth).relationships }),
       [.cacheGet (graphCacheKey artwork_id depth), .storeGetArtwork artwork_id,
        .cacheSet (graphCacheKey artwork_id depth)])

/-! ## Reachability in the embedded store

`reachIn s root n` is the breadth-first closure of the store's neighbour
relation: the ids whose shortest distance from `root` is at most `n`. -/

/-- Set union of id lists, keeping first occurrences. -/
def unionIds (acc : List Uuid) (xs : List Uuid) : List Uuid :=
  xs.foldl (fun a x => if x ∈ a then a else a ++ [x]) acc

/-- Uuids adjacent to `u` in the store. -/
def adj (s : GraphStore) (u : Uuid) : List Uuid :=
  (s.getNodeRelationships u).1.map GNode.uuid

/-- Ids at shortest distance at most `n` from `root`. -/
def reachIn (s : GraphStore) (root : Uuid) : Nat → List Uuid
  | 0 => [root]
  | n+1 =>
    (reachIn s root n).foldl (fun acc u => unionIds acc (adj s u)) (reachIn s root n)

/-- Depth invariant of the generator state: every accumulated node id, and
every endpoint of every accumulated relationship, lies within distance `j`
of the root. -/
def stInv (s : GraphStore) (root : Uuid) (j : Nat) (st : GenState) : Prop :=
  (∀ u ∈ st.nodes.map Prod.fst, u ∈ reachIn s root j) ∧
  (∀ r ∈ st.relationships, r.source_node ∈ reachIn s root j ∧
    r.target_node ∈ reachIn s root j)

/-- Deduplication invariant of the generator state: the node map has
duplicate-free keys and each entry is stored under its own uuid; the
relationship set is duplicate-free and every member was returned by some
store query. -/
def dedupInv (s : GraphStore) (st : GenState) : Prop :=
  (st.nodes.map Prod.fst).Nodup ∧
  (∀ kv ∈ st.nodes, (Prod.snd kv).uuid = Prod.fst kv) ∧
  st.relationships.Nodup ∧
  (∀ r ∈ st.relationships, ∃ u, r ∈ (s.getNodeRelationships u).2)

/-! ## Concrete fixtures used by counterexamples and witnesses -/

/-- Root artwork node of the generator fixtures. -/
def rootNode : GNode := { uuid := 0, type := "ARTWORK", properties := [] }

/-- 1001 artist leaves with uuids `1..1001`. -/
def starLeaves : List GNode :=
  (List.range 1001).map (fun i => { uuid := i + 1, type := "ARTIST", properties := [] })

/-- Star store: the root artwork is connected to 1001 distinct leaves; the
leaves have no further neighbours.  Its reachable set at depth 1 already
exceeds `MAX_GRAPH_SIZE`. -/
def starStore : GraphStore :=
  { getArtworkNode := fun u => if u = 0 then some rootNode else none,
    getNodeRelationships := fun u => if u = 0 then (starLeaves, []) else ([], []) }

/-- Store containing only the root artwork. -/
def loneStore : GraphStore :=
  { getArtworkNode := fun u => if u = 0 then some rootNode else none,
    getNodeRelationships := fun _ => ([], []) }

/-- Artist neighbour of the two-node fixture. -/
def pairArtist : GNode := { uuid := 1, type := "ARTIST", properties := [] }

/-- The single relationship of the two-node fixture. -/
def pairRel : GRel :=
  { uuid := 100, type := "CREATED_BY", source_node := 1, target_node := 0 }

/-- Two-node store: artwork 0 and artist 1 joined by `pairRel`. -/
def pairStore : GraphStore :=
  { getArtworkNode := fun u => if u = 0 then some rootNode else none,
    getNodeRelationships := fun u =>
      if u = 0 then ([pairArtist], [pairRel])
      else if u = 1 then ([rootNode], [pairRel])
      else ([], []) }

/-! ## Concrete fixtures used by counterexamples and witnesses (models) -/

/-- Breaker driven OPEN by two consecutive failures at time 0 (failure ratio
`2/2 > 1/2`). -/
def cbExample : CircuitBreaker :=
  (CircuitBreaker.init.record_failure 0).record_failure 0

/-- Breaker for the C2 witness: two failures at time 0 with interval 10. -/
def cbWitness : CircuitBreaker :=
  ((CircuitBreaker.init CIRCUIT_BREAKER_THRESHOLD 10).record_failure 0).record_failure 0

/-- Stored artist node used by the C3 and C10 fixtures. -/
def storedArtist : StoredNode :=
  { uuid := 1, type := "ARTIST", label := "Artist",
    properties := [("name", "Goya"), ("birth_year", "1746")],
    version := 3, last_modified_by := "seed" }

/-- In-memory counterpart of `storedArtist` holding the current version. -/
def artistSelf : PNode :=
  { uuid := 1, type := "ARTIST", label := "Artist",
    properties := [("name", "Goya"), ("birth_year", "1746")],
    version := 3, last_modified_by := "seed" }

/-- Store with the artist node and no relationships. -/
def dbNoRels : NodeDb := { nodes := [storedArtist], rels := [] }

/-- Store with the artist node and one incident relationship. -/
def dbWithRel : NodeDb :=
  { nodes := [storedArtist], rels := [{ uuid := 100, source := 1, target := 2 }] }

/-! ## Similarity search
(`src/backend/graph_service/utils/graph_algorithms.py`, lines 146-206) -/

/-- `SIMILARITY_METRICS` from `graph_algorithms.py`. -/
def SIMILARITY_METRICS : List String := ["jaccard", "cosine", "euclidean"]

/-- The whole-database view the similarity Cypher query runs against. -/
structure StoreData where
  nodes : List GNode
  rels : List GRel
deriving Repr

/-- `collect(distinct ...)`: keep first occurrences. -/
def dedupList {α : Type} [DecidableEq α] (xs : List α) : List α :=
  xs.foldl (fun acc x => if x ∈ acc then acc else acc ++ [x]) []

/-- Feature set of a node: `collect(distinct n.type + ':' + n.uuid)` over
every node `n` reachable from it by one relationship in either direction;
the feature string is modelled as the (type, uuid) pair. -/
def neighborFeatures (db : StoreData) (u : Uuid) : List (String × Uuid) :=
  dedupList ((db.rels.filterMap (fun r =>
      if r.source_node = u then some r.target_node
      else if r.target_node = u then some r.source_node
      else none)).filterMap (fun v =>
        (db.nodes.find? (fun n => n.uuid = v)).map (fun n => (n.type, n.uuid))))

/-- The Python score
`len(set(features) & set(other_features)) / len(set(features) | set(other_features))`,
computed over the deduplicated feature lists. -/
def jaccardScore (a b : List (String × Uuid)) : Rat :=
  ((a.filter (fun x => x ∈ b)).length : Rat) /
    ((a ++ b.filter (fun x => ¬ x ∈ a)).length : Rat)

/-- One element of the returned `similarities` list. -/
structure SimEntry where
  artwork_id : Uuid
  properties : List (String × PropVal)
  similarity_score : Rat
deriving Repr, DecidableEq

/-- Candidate rows of the similarity query: every other artwork node that
has at least one resolvable neighbour (the Cypher `MATCH (other)-[r2]-(n2)`);
nothing requires a shared neighbour with the source.  `LIMIT 100`. -/
def similarityRows (db : StoreData) (artwork_id : Uuid) : List GNode :=
  (db.nodes.filter (fun other =>
    other.type = "ARTWORK" ∧ other.uuid ≠ artwork_id ∧
      neighborFeatures db other.uuid ≠ [])).take 100

/-- `find_similar_artworks`: validate the metric name against the
allow-list, run the candidate query (which yields rows only when the source
artwork exists and has at least one neighbour), score each candidate —
Jaccard for `jaccard`, `continue` (producing nothing) for the other
metrics — and return the scored list sorted by descending score, cut to
`limit`. -/
def findSimilarArtworks (db : StoreData) (artwork_id : Uuid)
    (similarity_metric : String) (limit : Nat) : Except String (List SimEntry) :=
  if similarity_metric ∉ SIMILARITY_METRICS then
    .error "Invalid similarity metric"
  else
    .ok (((if similarity_metric = "jaccard" then
            (if (db.nodes.any (fun n => n.uuid = artwork_id ∧ n.type = "ARTWORK"))
                ∧ neighborFeatures db artwork_id ≠ [] then
              similarityRows db artwork_id
            else []).map (fun other =>
              { artwork_id := other.uuid, properties := other.properties,
                similarity_score := jaccardScore (neighborFeatures db artwork_id)
                  (neighborFeatures db other.uuid) })
          else []).mergeSort
        (fun x y => y.similarity_score ≤ x.similarity_score)).take limit)

/-- Artwork with one neighbour, disjoint from `simB`'s neighbourhood. -/
def simA : GNode := { uuid := 1, type := "ARTWORK", properties := [] }

/-- Second artwork, sharing no neighbour with `simA`. -/
def simB : GNode := { uuid := 2, type := "ARTWORK", properties := [] }

/-- Neighbour of `simA`. -/
def simX : GNode := { uuid := 10, type := "ARTIST", properties := [] }

/-- Neighbour of `simB`. -/
def simZ : GNode := { uuid := 11, type := "ARTIST", properties := [] }

/-- Database in which artworks 1 and 2 have disjoint neighbourhoods. -/
def simDb : StoreData :=
  { nodes := [simA, simB, simX, simZ],
    rels := [{ uuid := 100, type := "CREATED_BY", source_node := 1, target_node := 10 },
             { uuid := 101, type := "CREATED_BY", source_node := 2, target_node := 11 }] }

end ArtGraph

namespace ArtGraph

/-! ## Claim C2 -/

theorem cbExample_eval :
    cbExample = { threshold := 1 / 2, interval := 30, failures := 2,
                  total_requests := 2, last_failure_time := 0, isOpenFlag := true } := by
  norm_num [cbExample, CircuitBreaker.record_failure, CircuitBreaker.updateState,
    CircuitBreaker.init, CIRCUIT_BREAKER_THRESHOLD, CIRCUIT_BREAKER_INTERVAL]

theorem cbWitness_eval :
    cbWitness = { threshold := 1 / 2, interval := 10, failures := 2,
                  total_requests := 2, last_failure_time := 0, isOpenFlag := true } := by
  norm_num [cbWitness, CircuitBreaker.record_failure, CircuitBreaker.updateState,
    CircuitBreaker.init, CIRCUIT_BREAKER_THRESHOLD]

/-- Claim C2, counterexample. The claim says that after `reset_timeout`
elapses exactly one probe call is let through and a successful probe closes
the breaker.  On `cbExample` (opened at time 0, interval 30), at time 31:
two consecutive `is_open` checks both report closed — so two calls are let
through with no intervening outcome, not exactly one probe — and after the
first call succeeds, `record_success` sets the open flag again (the failure
ratio `2/3` still exceeds `1/2`), so a successful probe does not close the
breaker. -/
theorem C2_counterexample :
    (cbExample.isOpenCheck 31).1 = false ∧
    ((cbExample.isOpenCheck 31).2.isOpenCheck 31).1 = false ∧
    ((cbExample.isOpenCheck 31).2.record_success).isOpenFlag = true := by
  rw [cbExample_eval]
  norm_num [CircuitBreaker.isOpenCheck, CircuitBreaker.record_success,
    CircuitBreaker.updateState]

/-- Claim C2, amended: once the breaker is OPEN and more than `interval` has
elapsed since the last recorded failure, every `is_open` check reports closed
(so all calls are let through, not exactly one probe); the failure counters
are never reset, so a recorded success re-opens the flag whenever the
accumulated failure ratio still exceeds the threshold, and a recorded failure
re-opens it likewise while also restarting the interval. -/
theorem C2_reset_behavior_amended (cb : CircuitBreaker) (now : Int)
    (hOpen : cb.isOpenFlag = true)
    (hElapsed : cb.interval < now - cb.last_failure_time) :
    (cb.isOpenCheck now).1 = false ∧
    ((cb.isOpenCheck now).2.isOpenCheck now).1 = false ∧
    (cb.threshold < (cb.failures : Rat) / ((cb.total_requests : Rat) + 1) →
      ((cb.isOpenCheck now).2.record_success).isOpenFlag = true) ∧
    (∀ t : Int,
      cb.threshold < ((cb.failures : Rat) + 1) / ((cb.total_requests : Rat) + 1) →
      ((cb.isOpenCheck now).2.record_failure t).isOpenFlag = true ∧
      ((cb.isOpenCheck now).2.record_failure t).last_failure_time = t) := by
  have hcheck : cb.isOpenCheck now = (false, { cb with isOpenFlag := false }) := by
    unfold CircuitBreaker.isOpenCheck
    rw [if_pos ⟨hOpen, hElapsed⟩]
  refine ⟨by rw [hcheck], ?_, ?_, ?_⟩
  · rw [hcheck]
    unfold CircuitBreaker.isOpenCheck
    simp
  · intro hratio
    rw [hcheck]
    unfold CircuitBreaker.record_success CircuitBreaker.updateState
    have : ((cb.total_requests + 1 : Nat) : Rat) = (cb.total_requests : Rat) + 1 := by
      push_cast; ring
    simp only [this]
    rw [if_pos ⟨Nat.succ_pos _, hratio⟩]
  · intro t hratio
    rw [hcheck]
    unfold CircuitBreaker.record_failure CircuitBreaker.updateState
    have h1 : ((cb.total_requests + 1 : Nat) : Rat) = (cb.total_requests : Rat) + 1 := by
      push_cast; ring
    have h2 : ((cb.failures + 1 : Nat) : Rat) = (cb.failures : Rat) + 1 := by
      push_cast; ring
    simp only [h1, h2]
    rw [if_pos ⟨Nat.succ_pos _, hratio⟩]
    exact ⟨rfl, rfl⟩

/-- Witness for `C2_reset_behavior_amended`, at the concrete breaker
`cbWitness` (threshold `1/2`, interval 10, opened by two failures at time 0)
checked at time 11. -/
theorem C2_reset_behavior_witness :
    (cbWitness.isOpenCheck 11).1 = false ∧
    ((cbWitness.isOpenCheck 11).2.isOpenCheck 11).1 = false ∧
    ((cbWitness.isOpenCheck 11).2.record_success).isOpenFlag = true ∧
    ((cbWitness.isOpenCheck 11).2.record_failure 11).isOpenFlag = true := by
  have h := C2_reset_behavior_amended cbWitness 11
    (by rw [cbWitness_eval]) (by rw [cbWitness_eval]; norm_num)
  refine ⟨h.1, h.2.1, h.2.2.1 ?_, (h.2.2.2 11 ?_).1⟩
  · rw [cbWitness_eval]; norm_num
  · rw [cbWitness_eval]; norm_num

/-! ## Claim C4 -/

/-- Claim C4: a cache `get` on a missing key returns the `None` sentinel and
raises nothing (first conjunct, for any closed breaker); an open breaker
(second conjunct) and a client outage (third and fourth conjuncts) are
turned into a miss by the calling code rather than propagated. -/
theorem C4_cache_miss_semantics (jsonLoads : String → String) (cb : CircuitBreaker)
    (now : Int) (hClosed : (cb.isOpenCheck now).1 = false) :
    (CacheManager.get_cached_data jsonLoads cb now (.ok none)).1 = .ok none ∧
    (∀ (j2 : String → String) (cb2 : CircuitBreaker) (now2 : Int) (client : ClientGet),
      (cb2.isOpenCheck now2).1 = true →
      GraphGenerator.getViaManager j2 cb2 now2 client = none) ∧
    GraphGenerator.getFromCache .err = none ∧
    (∀ (j2 : String → String) (cb2 : CircuitBreaker) (now2 : Int),
      GraphGenerator.getViaManager j2 cb2 now2 .err = none) := by
  refine ⟨?_, ?_, rfl, ?_⟩
  · unfold CacheManager.get_cached_data
    simp [hClosed]
  · intro j2 cb2 now2 client hOpen
    unfold GraphGenerator.getViaManager CacheManager.get_cached_data
    simp [hOpen]
  · intro j2 cb2 now2
    unfold GraphGenerator.getViaManager CacheManager.get_cached_data
    by_cases h : (cb2.isOpenCheck now2).1 <;> simp [h]

/-- Witness for `C4_cache_miss_semantics`: a fresh breaker at time 0 is
closed, and a miss there returns the sentinel. -/
theorem C4_cache_miss_semantics_witness :
    (CacheManager.get_cached_data (fun s => s) CircuitBreaker.init 0 (.ok none)).1
      = .ok none ∧
    GraphGenerator.getFromCache .err = none := by
  have h := C4_cache_miss_semantics (fun s => s) CircuitBreaker.init 0
    (by unfold CircuitBreaker.isOpenCheck CircuitBreaker.init; simp)
  exact ⟨h.1, h.2.2.1⟩

/-! ## Claim C9 -/

/-- Claim C9: the integrity checksum is a function of only `title`,
`creation_date` and `medium` (first conjunct); hence `update_metadata`,
which leaves those three fields untouched while recomputing the checksum,
always writes back the same checksum value it started from (second
conjunct, under the invariant — established by `Artwork.create` (third
conjunct) and preserved here — that the stored checksum is the generated
one). -/
theorem C9_checksum_stability (uuid5dns : String → String) :
    (∀ a b : Artwork, a.title = b.title → a.creation_date = b.creation_date →
      a.medium = b.medium →
      Artwork.generateChecksum uuid5dns a = Artwork.generateChecksum uuid5dns b) ∧
    (∀ (a : Artwork) (md : List (String × String)) (u : String),
      a.checksum = Artwork.generateChecksum uuid5dns a →
      (a.update_metadata uuid5dns md u).checksum = a.checksum ∧
      (a.update_metadata uuid5dns md u).title = a.title ∧
      (a.update_metadata uuid5dns md u).creation_date = a.creation_date ∧
      (a.update_metadata uuid5dns md u).medium = a.medium) ∧
    (∀ t c m by2 : String,
      (Artwork.create uuid5dns t c m by2).checksum
        = Artwork.generateChecksum uuid5dns (Artwork.create uuid5dns t c m by2)) := by
  refine ⟨?_, ?_, ?_⟩
  · intro a b ht hc hm
    unfold Artwork.generateChecksum
    rw [ht, hc, hm]
  · intro a md u hsum
    unfold Artwork.update_metadata
    refine ⟨?_, rfl, rfl, rfl⟩
    rw [hsum]
    rfl
  · intro t c m by2
    rfl

/-! ## Claims C3 and C10 -/

theorem mem_uuid_unique {l : List StoredNode}
    (hnodup : (l.map StoredNode.uuid).Nodup)
    {a b : StoredNode} (ha : a ∈ l) (hb : b ∈ l) (h : a.uuid = b.uuid) : a = b :=
  List.inj_on_of_nodup_map hnodup ha hb h

theorem find_map_unique {l : List StoredNode} {u : Uuid} {stored : StoredNode}
    (hnodup : (l.map StoredNode.uuid).Nodup) (hmem : stored ∈ l)
    (hu : stored.uuid = u) (f : StoredNode → StoredNode)
    (hf : ∀ n, (f n).uuid = n.uuid) :
    (l.map f).find? (fun n => n.uuid = u) = some (f stored) := by
  induction l with
  | nil => cases hmem
  | cons a t ih =>
    rcases List.mem_cons.mp hmem with rfl | hmemt
    · simp only [List.map_cons, List.find?_cons, hf, hu]
      simp
    · have hne : ¬ a.uuid = u := by
        intro hau
        have : a.uuid ∈ t.map StoredNode.uuid := by
          rw [hau, ← hu]
          exact List.mem_map_of_mem _ hmemt
        exact (List.nodup_cons.mp hnodup).1 this
      have hdec : decide ((f a).uuid = u) = false := by
        simp [hf, hne]
      simp only [List.map_cons, List.find?_cons, hdec]
      exact ih (List.nodup_cons.mp hnodup).2 hmemt

/-- Claim C3: an update succeeds exactly when the supplied (in-memory)
version equals the node's current stored version; on success both the store
and the returned node carry version `old + 1` together with the validated
properties; on a stale version the update raises the version-conflict
`ValueError` and the store is unchanged. -/
theorem C3_optimistic_update (clean : String → String) (db : NodeDb) (self : PNode)
    (props : List (String × String)) (modified_by : String) (stored : StoredNode)
    (validated : List (String × String))
    (hmem : stored ∈ db.nodes) (huuid : stored.uuid = self.uuid)
    (hnodup : (db.nodes.map StoredNode.uuid).Nodup)
    (hvalid : Node.validate_properties clean self.type
      (mergeAssoc self.properties props) = .ok validated) :
    ((∃ n, (Node.update clean db self props modified_by).1 = .ok n) ↔
      self.version = stored.version) ∧
    (self.version = stored.version →
      (Node.update clean db self props modified_by).1
        = .ok { self with properties := validated, version := self.version + 1,
                          last_modified_by := modified_by } ∧
      findNode (Node.update clean db self props modified_by).2 self.uuid
        = some { stored with properties := validated, version := stored.version + 1,
                             last_modified_by := modified_by }) ∧
    (self.version ≠ stored.version →
      (Node.update clean db self props modified_by).1
        = .error "Node version conflict or node not found" ∧
      (Node.update clean db self props modified_by).2 = db) := by
  by_cases hver : self.version = stored.version
  · have hpred : (fun n : StoredNode =>
        decide (n.uuid = self.uuid ∧ n.version = self.version)) stored = true := by
      simp [← huuid, hver]
    have hne : db.nodes.filter
        (fun n => decide (n.uuid = self.uuid ∧ n.version = self.version)) ≠ [] := by
      intro hnil
      exact absurd hpred (by simpa using List.filter_eq_nil_iff.mp hnil stored hmem)
    obtain ⟨x, xs, hcons⟩ := List.exists_cons_of_ne_nil hne
    have hupd : Node.update clean db self props modified_by
        = (.ok { self with properties := validated, version := self.version + 1,
                           last_modified_by := modified_by },
           { db with nodes := db.nodes.map (fun n =>
               if n.uuid = self.uuid ∧ n.version = self.version then
                 { n with properties := validated, version := self.version + 1,
                          last_modified_by := modified_by }
               else n) }) := by
      unfold Node.update
      rw [hvalid, hcons]
      rfl
    rw [hupd]
    refine ⟨⟨fun _ => hver, fun _ => ⟨_, rfl⟩⟩, fun _ => ⟨rfl, ?_⟩, fun h => absurd hver h⟩
    unfold findNode
    have hfind := find_map_unique (l := db.nodes) (u := self.uuid) hnodup hmem huuid
      (fun n => if n.uuid = self.uuid ∧ n.version = self.version then
         { n with properties := validated, version := self.version + 1,
                  last_modified_by := modified_by }
       else n)
      (fun n => by by_cases h : n.uuid = self.uuid ∧ n.version = self.version <;> simp [h])
    rw [hfind]
    simp [huuid, ← hver]
  · have hnil : db.nodes.filter
        (fun n => decide (n.uuid = self.uuid ∧ n.version = self.version)) = [] := by
      rw [List.filter_eq_nil_iff]
      intro n hn
      simp only [decide_eq_true_eq, not_and]
      intro hu hv
      have : n = stored := mem_uuid_unique hnodup hn hmem (by rw [hu, huuid])
      subst this
      exact hver (hv.symm)
    have hupd : Node.update clean db self props modified_by
        = (.error "Node version conflict or node not found", db) := by
      unfold Node.update
      rw [hvalid, hnil]
      rfl
    rw [hupd]
    exact ⟨⟨fun hex => absurd hex.choose_spec (by intro hn; cases hn),
        fun h => absurd h hver⟩,
      fun h => absurd h hver, fun _ => ⟨rfl, rfl⟩⟩

/-- Witness for `C3_optimistic_update`: updating the concrete artist node
with its current version 3 succeeds and bumps the version to 4 in the store;
the same theorem instantiated at a stale in-memory version would give the
conflict branch. -/
theorem C3_optimistic_update_witness :
    (Node.update (fun s => s) dbNoRels artistSelf [("name", "Francisco Goya")] "editor").1
      = .ok { artistSelf with
                properties := [("name", "Francisco Goya"), ("birth_year", "1746")],
                version := 4, last_modified_by := "editor" } ∧
    findNode (Node.update (fun s => s) dbNoRels artistSelf
        [("name", "Francisco Goya")] "editor").2 1
      = some { storedArtist with
                 properties := [("name", "Francisco Goya"), ("birth_year", "1746")],
                 version := 4, last_modified_by := "editor" } := by
  have h := (C3_optimistic_update (fun s => s) dbNoRels artistSelf
    [("name", "Francisco Goya")] "editor" storedArtist
    [("name", "Francisco Goya"), ("birth_year", "1746")]
    (by simp [dbNoRels]) rfl
    (by simp [dbNoRels, storedArtist])
    (by rfl)).2.1 rfl
  exact ⟨h.1, h.2⟩

/-- Claim C10: when a node has at least one incident relationship, `delete`
raises, the store is unchanged, and the deletion query is never issued
(first conjunct); the deletion query is issued only when the relationship
count is zero (second conjunct). -/
theorem C10_delete_guard (db : NodeDb) (self : PNode) :
    (0 < relCount db self.uuid →
      (Node.delete db self).result
        = .error "Cannot delete node with existing relationships" ∧
      (Node.delete db self).db = db ∧
      (Node.delete db self).deleteIssued = false) ∧
    ((Node.delete db self).deleteIssued = true → relCount db self.uuid = 0) := by
  unfold Node.delete
  by_cases h : 0 < relCount db self.uuid
  · simp [h]
  · simp [h]
    omega

/-- Witness for `C10_delete_guard`: the artist node with one incident
relationship is not deleted, and the store is untouched. -/
theorem C10_delete_guard_witness :
    (Node.delete dbWithRel artistSelf).result
      = .error "Cannot delete node with existing relationships" ∧
    (Node.delete dbWithRel artistSelf).db = dbWithRel ∧
    (Node.delete dbWithRel artistSelf).deleteIssued = false :=
  (C10_delete_guard dbWithRel artistSelf).1 (by decide)

/-- Witness for `C9_checksum_stability`: a concrete artwork built by
`Artwork.create` keeps its checksum across a metadata update. -/
theorem C9_checksum_stability_witness :
    ((Artwork.create (fun s => "h:" ++ s) "Guernica" "1937" "oil" "seed").update_metadata
        (fun s => "h:" ++ s) [("style", "cubism")] "curator").checksum
      = (Artwork.create (fun s => "h:" ++ s) "Guernica" "1937" "oil" "seed").checksum := by
  exact ((C9_checksum_stability (fun s => "h:" ++ s)).2.1
    (Artwork.create (fun s => "h:" ++ s) "Guernica" "1937" "oil" "seed")
    [("style", "cubism")] "curator"
    ((C9_checksum_stability (fun s => "h:" ++ s)).2.2 "Guernica" "1937" "oil" "seed")).1

/-! ## Reachability lemmas for the depth bound -/

theorem mem_unionIds_left {x : Uuid} : ∀ {xs acc : List Uuid}, x ∈ acc → x ∈ unionIds acc xs := by
  intro xs
  induction xs with
  | nil => intro acc h; exact h
  | cons y ys ih =>
    intro acc h
    show x ∈ unionIds (if y ∈ acc then acc else acc ++ [y]) ys
    by_cases hy : y ∈ acc
    · rw [if_pos hy]; exact ih h
    · rw [if_neg hy]; exact ih (List.mem_append_left _ h)

theorem mem_unionIds_right {x : Uuid} : ∀ {xs acc : List Uuid}, x ∈ xs → x ∈ unionIds acc xs := by
  intro xs
  induction xs with
  | nil => intro acc h; cases h
  | cons y ys ih =>
    intro acc h
    show x ∈ unionIds (if y ∈ acc then acc else acc ++ [y]) ys
    rcases List.mem_cons.mp h with rfl | hys
    · by_cases hy : x ∈ acc
      · rw [if_pos hy]; exact mem_unionIds_left hy
      · rw [if_neg hy]
        exact mem_unionIds_left (List.mem_append_right _ (List.mem_singleton_self x))
    · by_cases hy : y ∈ acc
      · rw [if_pos hy]; exact ih hys
      · rw [if_neg hy]; exact ih hys

theorem mem_foldl_union_left (s : GraphStore) {x : Uuid} :
    ∀ {us acc : List Uuid}, x ∈ acc →
      x ∈ us.foldl (fun a u => unionIds a (adj s u)) acc := by
  intro us
  induction us with
  | nil => intro acc h; exact h
  | cons v vs ih => intro acc h; exact ih (mem_unionIds_left h)

theorem mem_foldl_union_of_adj (s : GraphStore) {x u : Uuid} :
    ∀ {us acc : List Uuid}, u ∈ us → x ∈ adj s u →
      x ∈ us.foldl (fun a u2 => unionIds a (adj s u2)) acc := by
  intro us
  induction us with
  | nil => intro acc h; cases h
  | cons v vs ih =>
    intro acc h hadj
    rw [List.foldl_cons]
    rcases List.mem_cons.mp h with rfl | hvs
    · exact mem_foldl_union_left s (mem_unionIds_right hadj)
    · exact ih hvs hadj

theorem reachIn_subset_succ {s : GraphStore} {root x : Uuid} {n : Nat}
    (h : x ∈ reachIn s root n) : x ∈ reachIn s root (n+1) :=
  mem_foldl_union_left s h

theorem adj_subset_reachIn_succ {s : GraphStore} {root u x : Uuid} {n : Nat}
    (hu : u ∈ reachIn s root n) (hx : x ∈ adj s u) : x ∈ reachIn s root (n+1) :=
  mem_foldl_union_of_adj s hu hx

theorem reachIn_mono {s : GraphStore} {root : Uuid} {m n : Nat} (hmn : m ≤ n) :
    ∀ x ∈ reachIn s root m, x ∈ reachIn s root n := by
  induction hmn with
  | refl => exact fun x hx => hx
  | step h2 ih => exact fun x hx => reachIn_subset_succ (ih x hx)

/-! ## The generator preserves the depth invariant -/

theorem mem_keys_foldl_insertNode {x : Uuid} :
    ∀ {ns : List GNode} {m : List (Uuid × GNode)},
      x ∈ (ns.foldl insertNode m).map Prod.fst →
      x ∈ m.map Prod.fst ∨ x ∈ ns.map GNode.uuid := by
  intro ns
  induction ns with
  | nil => intro m h; exact Or.inl h
  | cons n ns ih =>
    intro m h
    rw [List.foldl_cons] at h
    rcases ih h with h2 | h2
    · unfold insertNode at h2
      by_cases hc : m.any (fun kv => kv.1 = n.uuid)
      · rw [if_pos hc] at h2; exact Or.inl h2
      · rw [if_neg hc, List.map_append] at h2
        rcases List.mem_append.mp h2 with h3 | h3
        · exact Or.inl h3
        · right
          simp only [List.map_cons, List.mem_cons]
          simp at h3
          exact Or.inl h3
    · right
      simp only [List.map_cons, List.mem_cons]
      exact Or.inr h2

theorem mem_foldl_insertRel {r : GRel} :
    ∀ {add rs0 : List GRel}, r ∈ add.foldl insertRel rs0 → r ∈ rs0 ∨ r ∈ add := by
  intro add
  induction add with
  | nil => intro rs0 h; exact Or.inl h
  | cons a as ih =>
    intro rs0 h
    rw [List.foldl_cons] at h
    rcases ih h with h2 | h2
    · unfold insertRel at h2
      by_cases hc : a ∈ rs0
      · rw [if_pos hc] at h2; exact Or.inl h2
      · rw [if_neg hc] at h2
        rcases List.mem_append.mp h2 with h3 | h3
        · exact Or.inl h3
        · exact Or.inr (List.mem_cons.mpr (Or.inl (List.mem_singleton.mp h3)))
    · exact Or.inr (List.mem_cons.mpr (Or.inr h2))

theorem processNode_stInv {s : GraphStore} {root : Uuid} {m : Nat} {st : GenState}
    {u : Uuid} (hwf : StoreWF s) (hu : u ∈ reachIn s root m)
    (hst : stInv s root (m+1) st) : stInv s root (m+1) (processNode s st u) := by
  constructor
  · intro x hx
    rcases mem_keys_foldl_insertNode hx with h | h
    · exact hst.1 x h
    · exact adj_subset_reachIn_succ hu h
  · intro r hr
    rcases mem_foldl_insertRel hr with h | h
    · exact hst.2 r h
    · have hw := hwf u r h
      have hsu : u ∈ reachIn s root (m+1) := reachIn_subset_succ hu
      constructor
      · rcases List.mem_cons.mp hw.2.1 with h2 | h2
        · rw [h2]; exact hsu
        · exact adj_subset_reachIn_succ hu h2
      · rcases List.mem_cons.mp hw.2.2 with h2 | h2
        · rw [h2]; exact hsu
        · exact adj_subset_reachIn_succ hu h2

theorem foldl_processNode_stInv {s : GraphStore} {root : Uuid} {m : Nat}
    (hwf : StoreWF s) :
    ∀ (us : List Uuid) (st : GenState), (∀ u ∈ us, u ∈ reachIn s root m) →
      stInv s root (m+1) st → stInv s root (m+1) (us.foldl (processNode s) st) := by
  intro us
  induction us with
  | nil => intro st hus hst; exact hst
  | cons u us ih =>
    intro st hus hst
    rw [List.foldl_cons]
    exact ih _ (fun v hv => hus v (List.mem_cons_of_mem u hv))
      (processNode_stInv hwf (hus u (List.mem_cons_self u us)) hst)

theorem foldl_processNodeChunk_eq (s : GraphStore) :
    ∀ (chunks : List (List Uuid)) (st : GenState),
      chunks.foldl (processNodeChunk s) st = chunks.flatten.foldl (processNode s) st := by
  intro chunks
  induction chunks with
  | nil => intro st; rfl
  | cons c cs ih =>
    intro st
    rw [List.foldl_cons, List.flatten_cons, List.foldl_append]
    exact ih (processNodeChunk s st c)

theorem chunksOfAux_flatten (k : Nat) :
    ∀ (fuel : Nat) (l : List Uuid), l.length ≤ fuel →
      (chunksOfAux k fuel l).flatten = l := by
  intro fuel
  induction fuel with
  | zero =>
    intro l h
    match l with
    | [] => rfl
    | x :: xs => simp at h
  | succ n ih =>
    intro l h
    match l with
    | [] => rfl
    | x :: xs =>
      simp only [List.length_cons, Nat.add_le_add_iff_right] at h
      simp only [chunksOfAux, List.flatten_cons]
      rw [ih (xs.drop (k-1)) (by simp only [List.length_drop]; omega)]
      simp [List.take_append_drop]

theorem chunksOf_flatten (k : Nat) (l : List Uuid) : (chunksOf k l).flatten = l :=
  chunksOfAux_flatten k l.length l le_rfl

theorem stInv_mono {s : GraphStore} {root : Uuid} {st : GenState} {j k : Nat}
    (hjk : j ≤ k) (h : stInv s root j st) : stInv s root k st :=
  ⟨fun u hu => reachIn_mono hjk u (h.1 u hu),
   fun r hr => ⟨reachIn_mono hjk _ (h.2 r hr).1, reachIn_mono hjk _ (h.2 r hr).2⟩⟩

theorem levelStep_stInv {s : GraphStore} {root : Uuid} {m : Nat} {st : GenState}
    (hwf : StoreWF s) (hst : stInv s root m st) :
    stInv s root (m+1) (levelStep s st) := by
  unfold levelStep
  rw [foldl_processNodeChunk_eq, chunksOf_flatten]
  exact foldl_processNode_stInv hwf _ st hst.1 (stInv_mono (Nat.le_succ m) hst)

theorem bfsLoop_stInv {s : GraphStore} {root : Uuid} (hwf : StoreWF s) :
    ∀ (n m : Nat) (st : GenState), stInv s root m st →
      stInv s root (m + n) (bfsLoop s n st) := by
  intro n
  induction n with
  | zero => intro m st h; exact h
  | succ n ih =>
    intro m st h
    show stInv s root _
      (if MAX_GRAPH_SIZE < (levelStep s st).nodes.length then levelStep s st
       else bfsLoop s n (levelStep s st))
    have h2 := levelStep_stInv hwf h
    by_cases hc : MAX_GRAPH_SIZE < (levelStep s st).nodes.length
    · rw [if_pos hc]
      exact stInv_mono (by omega) h2
    · rw [if_neg hc]
      exact stInv_mono (by omega) (ih (m+1) _ h2)

/-- Claim C6: in every generated subgraph, each relationship joins two nodes
whose shortest distance from the root artwork is at most the requested
depth `d` (membership in `reachIn s root d` is exactly distance ≤ `d` in
the embedded store). -/
theorem C6_depth_bound (s : GraphStore) (artwork : GNode) (d : Nat)
    (hwf : StoreWF s) :
    ∀ r ∈ (generateGraphParallel s artwork d).relationships,
      r.source_node ∈ reachIn s artwork.uuid d ∧
      r.target_node ∈ reachIn s artwork.uuid d := by
  have h0 : stInv s artwork.uuid 0
      { nodes := [(artwork.uuid, artwork)], relationships := [] } := by
    constructor
    · intro u hu
      simp only [List.map_cons, List.map_nil, List.mem_singleton] at hu
      rw [hu]
      exact List.mem_singleton_self _
    · intro r hr
      cases hr
  have h := bfsLoop_stInv hwf d 0 _ h0
  rw [Nat.zero_add] at h
  exact fun r hr => h.2 r hr

theorem pairStore_wf : StoreWF pairStore := by
  intro u r hr
  by_cases h0 : u = 0
  · subst h0
    have hr2 : r = pairRel := by simpa [pairStore] using hr
    subst hr2
    decide
  · by_cases h1 : u = 1
    · subst h1
      have hr2 : r = pairRel := by simpa [pairStore, h0] using hr
      subst hr2
      decide
    · have hnil : (pairStore.getNodeRelationships u).2 = [] := by
        simp [pairStore, h0, h1]
      rw [hnil] at hr
      cases hr

/-- Witness for `C6_depth_bound`: on the two-node store, the single
generated relationship joins ids within distance 1 of the root. -/
theorem C6_depth_bound_witness :
    pairRel.source_node ∈ reachIn pairStore rootNode.uuid 1 ∧
    pairRel.target_node ∈ reachIn pairStore rootNode.uuid 1 :=
  C6_depth_bound pairStore rootNode 1 pairStore_wf pairRel (by decide)

/-! ## The generator preserves the deduplication invariant -/

theorem foldl_insertNode_dedup :
    ∀ (ns : List GNode) (m : List (Uuid × GNode)),
      (m.map Prod.fst).Nodup → (∀ kv ∈ m, (Prod.snd kv).uuid = Prod.fst kv) →
      ((ns.foldl insertNode m).map Prod.fst).Nodup ∧
      (∀ kv ∈ ns.foldl insertNode m, (Prod.snd kv).uuid = Prod.fst kv) := by
  intro ns
  induction ns with
  | nil => intro m h1 h2; exact ⟨h1, h2⟩
  | cons n ns ih =>
    intro m h1 h2
    rw [List.foldl_cons]
    apply ih
    · unfold insertNode
      by_cases hc : m.any (fun kv => kv.1 = n.uuid)
      · rw [if_pos hc]; exact h1
      · rw [if_neg hc, List.map_append]
        rw [List.nodup_append]
        refine ⟨h1, List.nodup_singleton _, ?_⟩
        intro a ha hb
        simp only [List.map_cons, List.map_nil, List.mem_singleton] at hb
        subst hb
        simp only [List.any_eq_true, decide_eq_true_eq, not_exists] at hc
        obtain ⟨kv, hkv, hkva⟩ := List.mem_map.mp ha
        exact hc kv ⟨hkv, hkva⟩
    · unfold insertNode
      by_cases hc : m.any (fun kv => kv.1 = n.uuid)
      · rw [if_pos hc]; exact h2
      · rw [if_neg hc]
        intro kv hkv
        rcases List.mem_append.mp hkv with h3 | h3
        · exact h2 kv h3
        · rw [List.mem_singleton.mp h3]

theorem foldl_insertRel_nodup :
    ∀ (add rs : List GRel), rs.Nodup → (add.foldl insertRel rs).Nodup := by
  intro add
  induction add with
  | nil => intro rs h; exact h
  | cons a as ih =>
    intro rs h
    rw [List.foldl_cons]
    apply ih
    unfold insertRel
    by_cases hc : a ∈ rs
    · rw [if_pos hc]; exact h
    · rw [if_neg hc, List.nodup_append]
      refine ⟨h, List.nodup_singleton _, ?_⟩
      intro x hx hx2
      rw [List.mem_singleton.mp hx2] at hx
      exact hc hx

theorem processNode_dedupInv {s : GraphStore} {st : GenState} {u : Uuid}
    (h : dedupInv s st) : dedupInv s (processNode s st u) := by
  obtain ⟨h1, h2, h3, h4⟩ := h
  have hn := foldl_insertNode_dedup (s.getNodeRelationships u).1 st.nodes h1 h2
  refine ⟨hn.1, hn.2, foldl_insertRel_nodup _ _ h3, ?_⟩
  intro r hr
  rcases mem_foldl_insertRel hr with h5 | h5
  · exact h4 r h5
  · exact ⟨u, h5⟩

theorem foldl_processNode_dedupInv {s : GraphStore} :
    ∀ (us : List Uuid) (st : GenState), dedupInv s st →
      dedupInv s (us.foldl (processNode s) st) := by
  intro us
  induction us with
  | nil => intro st h; exact h
  | cons u us ih =>
    intro st h
    rw [List.foldl_cons]
    exact ih _ (processNode_dedupInv h)

theorem bfsLoop_dedupInv {s : GraphStore} :
    ∀ (n : Nat) (st : GenState), dedupInv s st → dedupInv s (bfsLoop s n st) := by
  intro n
  induction n with
  | zero => intro st h; exact h
  | succ n ih =>
    intro st h
    show dedupInv s
      (if MAX_GRAPH_SIZE < (levelStep s st).nodes.length then levelStep s st
       else bfsLoop s n (levelStep s st))
    have h2 : dedupInv s (levelStep s st) := by
      unfold levelStep
      rw [foldl_processNodeChunk_eq, chunksOf_flatten]
      exact foldl_processNode_dedupInv _ _ h
    by_cases hc : MAX_GRAPH_SIZE < (levelStep s st).nodes.length
    · rw [if_pos hc]; exact h2
    · rw [if_neg hc]; exact ih _ h2

/-- Claim C7: in every generated subgraph, node uuids are pairwise distinct
(nodes are deduplicated by uuid against the accumulated map) and
relationship uuids are pairwise distinct (relationships are deduplicated as
structural set members; distinctness of their uuids additionally needs the
store hypothesis `hinj` that a relationship record is determined by its
uuid, which holds of any store keyed by relationship uuid). -/
theorem C7_dedup (s : GraphStore) (artwork : GNode) (depth : Nat)
    (hinj : ∀ (u u2 : Uuid) (r r2 : GRel), r ∈ (s.getNodeRelationships u).2 →
      r2 ∈ (s.getNodeRelationships u2).2 → r.uuid = r2.uuid → r = r2) :
    ((generateGraphParallel s artwork depth).nodes.map (fun kv => (Prod.snd kv).uuid)).Nodup ∧
    ((generateGraphParallel s artwork depth).relationships.map GRel.uuid).Nodup := by
  have h0 : dedupInv s { nodes := [(artwork.uuid, artwork)], relationships := [] } := by
    refine ⟨List.nodup_singleton _, ?_, List.nodup_nil, ?_⟩
    · intro kv hkv
      rw [List.mem_singleton.mp hkv]
    · intro r hr
      cases hr
  have h := bfsLoop_dedupInv depth _ h0
  constructor
  · have hmap : ((generateGraphParallel s artwork depth).nodes.map
        (fun kv => (Prod.snd kv).uuid))
        = ((generateGraphParallel s artwork depth).nodes.map Prod.fst) :=
      List.map_congr_left (fun kv hkv => h.2.1 kv hkv)
    rw [hmap]
    exact h.1
  · apply List.Nodup.map_on ?_ h.2.2.1
    intro x hx y hy hxy
    obtain ⟨u, hu⟩ := h.2.2.2 x hx
    obtain ⟨u2, hu2⟩ := h.2.2.2 y hy
    exact hinj u u2 x y hu hu2 hxy

theorem pairStore_rel_eq :
    ∀ (u : Uuid) (r : GRel), r ∈ (pairStore.getNodeRelationships u).2 → r = pairRel := by
  intro u r hr
  by_cases h0 : u = 0
  · subst h0; simpa [pairStore] using hr
  · by_cases h1 : u = 1
    · subst h1; simpa [pairStore, h0] using hr
    · have hnil : (pairStore.getNodeRelationships u).2 = [] := by
        simp [pairStore, h0, h1]
      rw [hnil] at hr
      cases hr

/-- Witness for `C7_dedup`: the two-node store satisfies the uuid-keying
hypothesis, and the depth-2 subgraph has pairwise-distinct node and
relationship uuids. -/
theorem C7_dedup_witness :
    ((generateGraphParallel pairStore rootNode 2).nodes.map
      (fun kv => (Prod.snd kv).uuid)).Nodup ∧
    ((generateGraphParallel pairStore rootNode 2).relationships.map GRel.uuid).Nodup :=
  C7_dedup pairStore rootNode 2 (fun u u2 r r2 hr hr2 _ => by
    rw [pairStore_rel_eq u r hr, pairStore_rel_eq u2 r2 hr2])

/-! ## Claim C1: truncation -/

theorem foldl_insertNode_fresh_length :
    ∀ (ns : List GNode) (m : List (Uuid × GNode)),
      (ns.map GNode.uuid).Nodup → (∀ n ∈ ns, n.uuid ∉ m.map Prod.fst) →
      (ns.foldl insertNode m).length = m.length + ns.length := by
  intro ns
  induction ns with
  | nil => intro m h1 h2; simp
  | cons n ns ih =>
    intro m h1 h2
    rw [List.foldl_cons]
    have hanyf : m.any (fun kv => kv.1 = n.uuid) = false := by
      simp only [List.any_eq_false, decide_eq_true_eq]
      intro kv hkv heq
      exact h2 n (List.mem_cons_self n ns) (heq ▸ List.mem_map_of_mem Prod.fst hkv)
    have hins : insertNode m n = m ++ [(n.uuid, n)] := by
      unfold insertNode
      rw [hanyf]
      simp
    rw [hins, ih (m ++ [(n.uuid, n)]) (List.nodup_cons.mp (by simpa using h1)).2 ?fresh]
    · simp
      omega
    case fresh =>
      intro x hx
      rw [List.map_append, List.mem_append]
      rintro (h3 | h3)
      · exact h2 x (List.mem_cons_of_mem n hx) h3
      · simp only [List.map_cons, List.map_nil, List.mem_singleton] at h3
        have : n.uuid ∈ ns.map GNode.uuid := h3 ▸ List.mem_map_of_mem GNode.uuid hx
        exact (List.nodup_cons.mp (by simpa using h1)).1 this

theorem starLeaves_uuid_nodup : (starLeaves.map GNode.uuid).Nodup := by
  have hmap : starLeaves.map GNode.uuid = (List.range 1001).map (fun i => i + 1) := by
    rw [starLeaves, List.map_map]
    rfl
  rw [hmap]
  exact (List.nodup_range 1001).map (fun a b h => Nat.add_right_cancel h)

theorem star_level :
    levelStep starStore { nodes := [(rootNode.uuid, rootNode)], relationships := [] }
      = { nodes := starLeaves.foldl insertNode [(rootNode.uuid, rootNode)],
          relationships := [] } := by
  show (processNode starStore _ rootNode.uuid) = _
  unfold processNode
  simp [starStore, rootNode]

theorem star_level_len :
    (levelStep starStore
      { nodes := [(rootNode.uuid, rootNode)], relationships := [] }).nodes.length
      = 1002 := by
  have hlen := congrArg (fun st : GenState => st.nodes.length) star_level
  simp only at hlen
  rw [hlen]
  rw [foldl_insertNode_fresh_length starLeaves _ starLeaves_uuid_nodup ?fresh]
  · simp [starLeaves]
  case fresh =>
    intro n hn
    obtain ⟨i, hi, rfl⟩ := List.mem_map.mp hn
    simp [rootNode]

theorem star_bfs (d : Nat) :
    generateGraphParallel starStore rootNode (d+1)
      = levelStep starStore { nodes := [(rootNode.uuid, rootNode)], relationships := [] } := by
  show bfsLoop starStore (d+1) _ = _
  simp only [bfsLoop]
  rw [if_pos (by rw [star_level_len]; decide)]

/-- Claim C1, counterexample.  On the star store (root artwork with 1001
distinct neighbours) at depth 1, the breadth-first expansion accumulates
1002 nodes — more than `MAX_GRAPH_SIZE = 1000` — yet the returned result
contains all 1002 nodes: `|nodes| ≤ MAX_GRAPH_SIZE` is violated (and the
returned dict has no metadata, so no `truncated` flag is set either: see
the `GraphResult` type taken from the code). -/
theorem C1_counterexample :
    ¬ ((generateGraphParallel starStore rootNode 1).nodes.length ≤ MAX_GRAPH_SIZE) := by
  have h := star_bfs 0
  rw [Nat.zero_add] at h
  rw [h, star_level_len]
  decide

/-- Claim C1, amended: once a level pushes the accumulated node count past
`MAX_GRAPH_SIZE`, the generator stops expanding (the loop ends at that
level, whatever depth remains — first conjunct); but the oversized level is
returned as is, so the node count can exceed `MAX_GRAPH_SIZE` (on the star
store every depth ≥ 1 yields 1002 nodes — second conjunct), and the result
dict carries no `truncated` marker at all (its type, taken from the code,
has only `nodes` and `relationships`). -/
theorem C1_truncation_amended :
    (∀ (s : GraphStore) (st : GenState) (n : Nat),
      bfsLoop s (n+1) st =
        if MAX_GRAPH_SIZE < (levelStep s st).nodes.length then levelStep s st
        else bfsLoop s n (levelStep s st)) ∧
    (∀ d : Nat, (generateGraphParallel starStore rootNode (d+1)).nodes.length = 1002) := by
  constructor
  · intro s st n
    rfl
  · intro d
    rw [star_bfs d, star_level_len]

/-! ## Claim C5: no depth validation -/

/-- Claim C5, counterexample.  A request of depth 100 — far beyond the
configured maximum (the test fixture configures `max_depth = 2`) — is not
rejected: the cache is queried, the store is queried, and a normal result is
returned.  No `ValidationError` exists on this code path. -/
theorem C5_counterexample :
    (generateArtworkGraph loneStore (fun _ => .ok none)
        (fun _ => ((0 : Rat), (0 : Rat))) 0 100).1
      = .ok { nodes := [{ uuid := 0, type := "ARTWORK",
                          properties := [("position", PropVal.point 0 0)] }],
              relationships := [] } ∧
    (generateArtworkGraph loneStore (fun _ => .ok none)
        (fun _ => ((0 : Rat), (0 : Rat))) 0 100).2
      = [.cacheGet "graph:0:100", .storeGetArtwork 0, .cacheSet "graph:0:100"] := by
  constructor <;> rfl

/-- Claim C5, amended: `generate_artwork_graph` performs no depth
validation at all.  Whatever the requested depth, the first externally
visible action is always the cache read (first conjunct), and the only
error the function can return is the missing-artwork `ValueError` — never a
depth `ValidationError` (second conjunct). -/
theorem C5_no_depth_validation_amended (s : GraphStore) (cache : String → CacheOutcome)
    (pos : Uuid → Rat × Rat) (artwork_id : Uuid) (depth : Nat) :
    (generateArtworkGraph s cache pos artwork_id depth).2.head?
      = some (.cacheGet (graphCacheKey artwork_id depth)) ∧
    (∀ e : String, (generateArtworkGraph s cache pos artwork_id depth).1 = .error e →
      e = "Artwork not found: " ++ toString artwork_id) := by
  unfold generateArtworkGraph
  cases h1 : getFromCacheG (cache (graphCacheKey artwork_id depth)) with
  | some g => exact ⟨rfl, fun e he => Except.noConfusion he⟩
  | none =>
    cases h2 : s.getArtworkNode artwork_id with
    | none =>
      refine ⟨rfl, fun e he => ?_⟩
      injection he with h3
      exact h3.symm
    | some artwork => exact ⟨rfl, fun e he => Except.noConfusion he⟩

/-- Witness for `C5_no_depth_validation_amended`, at a request for a missing
artwork id: the cache read still comes first and the only error is the
missing-artwork one. -/
theorem C5_no_depth_validation_witness :
    (generateArtworkGraph loneStore (fun _ => .ok none)
        (fun _ => ((0 : Rat), (0 : Rat))) 5 3).2.head?
      = some (.cacheGet (graphCacheKey 5 3)) ∧
    "Artwork not found: 5" = "Artwork not found: " ++ toString 5 := by
  have h := C5_no_depth_validation_amended loneStore (fun _ => .ok none)
    (fun _ => ((0 : Rat), (0 : Rat))) 5 3
  exact ⟨h.1, h.2 "Artwork not found: 5" (by rfl)⟩

/-! ## Claim C8: similarity -/

theorem simDb_feat1 : neighborFeatures simDb 1 = [("ARTIST", 10)] := by decide

theorem simDb_feat2 : neighborFeatures simDb 2 = [("ARTIST", 11)] := by decide

theorem simDb_rows : similarityRows simDb 1 = [simB] := by decide

theorem simDb_score :
    jaccardScore (neighborFeatures simDb 1) (neighborFeatures simDb 2) = 0 := by
  rw [simDb_feat1, simDb_feat2]
  unfold jaccardScore
  norm_num

theorem simDb_eval :
    findSimilarArtworks simDb 1 "jaccard" 10
      = .ok [{ artwork_id := 2, properties := [], similarity_score := 0 }] := by
  unfold findSimilarArtworks
  rw [if_neg (by decide), if_pos rfl, if_pos (by decide), simDb_rows]
  simp only [List.map_cons, List.map_nil]
  rw [show (neighborFeatures simDb simB.uuid) = neighborFeatures simDb 2 from rfl,
    simDb_score]
  simp [List.mergeSort_singleton, simB]

/-- Claim C8, counterexample.  The claim requires every returned candidate
to share at least one neighbour with the source artwork.  In `simDb`,
artwork 1 has neighbour set `{(ARTIST, 10)}` and artwork 2 has neighbour
set `{(ARTIST, 11)}` — their intersection is empty (second conjunct) — yet
`find_similar_artworks` returns artwork 2 as a candidate, with Jaccard
score 0 (first conjunct): the Cypher query matches every other artwork
that has any neighbour, not only those sharing one. -/
theorem C8_counterexample :
    findSimilarArtworks simDb 1 "jaccard" 10
      = .ok [{ artwork_id := 2, properties := [], similarity_score := 0 }] ∧
    (neighborFeatures simDb 1).filter (fun x => x ∈ neighborFeatures simDb 2) = [] :=
  ⟨simDb_eval, by decide⟩

/-- Claim C8, amended: for a `jaccard` similarity query, the returned list
has at most `limit` entries, is sorted by descending score, and every entry
is a distinct artwork possessing at least one neighbour whose score is
exactly `|intersection| / |union|` of the two neighbour-feature sets — but
candidates are not required to share a neighbour with the source (those
sharing none simply score 0). -/
theorem C8_similarity_amended (db : StoreData) (artwork_id : Uuid) (limit : Nat)
    (res : List SimEntry)
    (hres : findSimilarArtworks db artwork_id "jaccard" limit = .ok res) :
    res.length ≤ limit ∧
    List.Sorted (fun x y : SimEntry => y.similarity_score ≤ x.similarity_score) res ∧
    (∀ e ∈ res, ∃ other, other ∈ db.nodes ∧
      other.type = "ARTWORK" ∧ other.uuid ≠ artwork_id ∧
      neighborFeatures db other.uuid ≠ [] ∧
      e.artwork_id = other.uuid ∧
      e.similarity_score
        = jaccardScore (neighborFeatures db artwork_id)
            (neighborFeatures db other.uuid)) := by
  unfold findSimilarArtworks at hres
  rw [if_neg (by decide), if_pos rfl] at hres
  injection hres with hres
  subst hres
  refine ⟨List.length_take_le _ _, ?_, ?_⟩
  · have htrans : ∀ a b c : SimEntry,
        (fun x y : SimEntry => decide (y.similarity_score ≤ x.similarity_score)) a b = true →
        (fun x y : SimEntry => decide (y.similarity_score ≤ x.similarity_score)) b c = true →
        (fun x y : SimEntry => decide (y.similarity_score ≤ x.similarity_score)) a c = true := by
      intro a b c hab hbc
      simp only [decide_eq_true_eq] at hab hbc ⊢
      exact le_trans hbc hab
    have htotal : ∀ a b : SimEntry,
        ((fun x y : SimEntry => decide (y.similarity_score ≤ x.similarity_score)) a b ||
         (fun x y : SimEntry => decide (y.similarity_score ≤ x.similarity_score)) b a)
          = true := by
      intro a b
      simp only [Bool.or_eq_true, decide_eq_true_eq]
      exact le_total _ _
    have hs := List.sorted_mergeSort htrans htotal
      ((if (db.nodes.any (fun n => n.uuid = artwork_id ∧ n.type = "ARTWORK"))
          ∧ neighborFeatures db artwork_id ≠ [] then
        similarityRows db artwork_id
      else []).map (fun other =>
        { artwork_id := other.uuid, properties := other.properties,
          similarity_score := jaccardScore (neighborFeatures db artwork_id)
            (neighborFeatures db other.uuid) }))
    have hp := List.Pairwise.imp (fun h => by simpa using h) hs
    exact hp.sublist (List.take_sublist _ _)
  · intro e he
    have h1 : e ∈ _ := List.take_subset _ _ he
    rw [List.mem_mergeSort] at h1
    obtain ⟨other, hother, rfl⟩ := List.mem_map.mp h1
    by_cases hg : (db.nodes.any (fun n => n.uuid = artwork_id ∧ n.type = "ARTWORK"))
        ∧ neighborFeatures db artwork_id ≠ []
    · rw [if_pos hg] at hother
      have h2 := List.take_subset _ _ hother
      rw [List.mem_filter] at h2
      obtain ⟨hdb, hpred⟩ := h2
      simp only [decide_eq_true_eq] at hpred
      exact ⟨other, hdb, hpred.1, hpred.2.1, hpred.2.2, rfl, rfl⟩
    · rw [if_neg hg] at hother
      cases hother

/-- Witness for `C8_similarity_amended`, instantiated on `simDb`. -/
theorem C8_similarity_amended_witness :
    ([({ artwork_id := 2, properties := [], similarity_score := 0 } : SimEntry)]).length ≤ 10 ∧
    List.Sorted (fun x y : SimEntry => y.similarity_score ≤ x.similarity_score)
      [{ artwork_id := 2, properties := [], similarity_score := 0 }] ∧
    (∀ e ∈ [({ artwork_id := 2, properties := [], similarity_score := 0 } : SimEntry)],
      ∃ other, other ∈ simDb.nodes ∧ other.type = "ARTWORK" ∧ other.uuid ≠ 1 ∧
        neighborFeatures simDb other.uuid ≠ [] ∧ e.artwork_id = other.uuid ∧
        e.similarity_score = jaccardScore (neighborFeatures simDb 1)
          (neighborFeatures simDb other.uuid)) :=
  C8_similarity_amended simDb 1 10 _ simDb_eval

end ArtGraph
